import Mathlib

set_option maxHeartbeats 1000000
set_option synthInstance.maxSize 1000

/-! Verification development for the xl2times repository: a shallow embedding of
the dd-to-tabular converter (src/utils/dd_to_csv.py) and of the
mapping-configuration compiler (src/xl2times/datatypes.py).

Modelling conventions:
- Python strings are lists of characters (`Str`).
- Python dictionaries are insertion-ordered association lists; updating an
  existing key keeps its position, as CPython dictionaries do.
- Python sets are insertion-ordered duplicate-free lists built with `setAdd`;
  only membership and duplicate-freedom are meaningful, the order in the model
  is the insertion order (CPython iteration order of a set is unspecified).
- Fallible code returns `Except String`; a raised Python exception is an
  `Except.error` carrying the message.
-/

/-- Text values: Python strings modelled as lists of characters. -/
abbrev Str : Type := List Char

/-- Convert a Lean string literal to the character-list representation. -/
def str (s : String) : Str := s.toList

/-- The single-quote character. -/
def quoteChar : Char := Char.ofNat 39

/-- Python whitespace characters recognised by str.strip and str.isspace
(ASCII range: space, tab, newline, carriage return, vertical tab, form feed). -/
def isPyWS (c : Char) : Bool :=
  c == ' ' || c == '\t' || c == '\n' || c == '\r' || c == Char.ofNat 11 || c == Char.ofNat 12

/-- Python str.strip with no argument: remove leading and trailing whitespace. -/
def trimWS (s : Str) : Str :=
  ((s.dropWhile isPyWS).reverse.dropWhile isPyWS).reverse

/-- Python str.rstrip with no argument: remove trailing whitespace. -/
def rstripWS (s : Str) : Str :=
  (s.reverse.dropWhile isPyWS).reverse

/-- Python str.strip(chars): remove leading and trailing characters drawn from cs. -/
def stripAll (cs : List Char) (s : Str) : Str :=
  ((s.dropWhile cs.contains).reverse.dropWhile cs.contains).reverse

/-- Python str.lower (ASCII). -/
def toLowerStr (s : Str) : Str := s.map Char.toLower

/-- Python str.upper (ASCII). -/
def toUpperStr (s : Str) : Str := s.map Char.toUpper

/-- Python str.startswith. -/
def strStartsWith (p s : Str) : Bool := p.isPrefixOf s

/-- Python str.split(sep) with a single-character separator: split at every
occurrence, keeping empty segments; the empty string yields one empty segment. -/
def splitChar (c : Char) : Str → List Str
  | [] => [[]]
  | x :: xs =>
    match splitChar c xs with
    | [] => [[]]
    | y :: ys => if x = c then [] :: y :: ys else (x :: y) :: ys

/-- Python re.split on an alternation of single characters (used by the mapping
grammar parser with the bracket pair and with the parenthesis pair). -/
def splitIn (cs : List Char) : Str → List Str
  | [] => [[]]
  | x :: xs =>
    match splitIn cs xs with
    | [] => [[]]
    | y :: ys => if cs.contains x then [] :: y :: ys else (x :: y) :: ys

/-- Worker for splitOnSub, structurally recursive on a fuel that bounds the
length of the remaining text, so that the definition reduces in the kernel. -/
def splitOnSubAux (c : Char) (cs : Str) : Nat → Str → List Str
  | _, [] => [[]]
  | 0, s => [s]
  | fuel + 1, x :: xs =>
    if (c :: cs).isPrefixOf (x :: xs) then
      [] :: splitOnSubAux c cs fuel (xs.drop cs.length)
    else
      match splitOnSubAux c cs fuel xs with
      | [] => [[]]
      | y :: ys => (x :: y) :: ys

/-- Python str.split(sep) for a non-empty multi-character separator, given as a
head character plus the remaining characters. -/
def splitOnSub (c : Char) (cs : Str) (s : Str) : List Str :=
  splitOnSubAux c cs s.length s

/-- Worker for replaceSub, structurally recursive on a fuel that bounds the
length of the remaining text. -/
def replaceSubAux (c : Char) (cs : Str) (repl : Str) : Nat → Str → Str
  | _, [] => []
  | 0, s => s
  | fuel + 1, x :: xs =>
    if (c :: cs).isPrefixOf (x :: xs) then
      repl ++ replaceSubAux c cs repl fuel (xs.drop cs.length)
    else
      x :: replaceSubAux c cs repl fuel xs

/-- Python str.replace(pat, repl) for a non-empty pattern: replace every
non-overlapping occurrence, scanning left to right. -/
def replaceSub (c : Char) (cs : Str) (repl : Str) (s : Str) : Str :=
  replaceSubAux c cs repl s.length s

deriving instance DecidableEq for Except

/-- Insertion-ordered dictionary update, as in CPython: an existing key keeps
its position and gets the new value, a new key is appended at the end. -/
def dictUpsert {α : Type} : List (Str × α) → Str → α → List (Str × α)
  | [], k, v => [(k, v)]
  | (k2, v2) :: rest, k, v =>
    if k2 = k then (k2, v) :: rest else (k2, v2) :: dictUpsert rest k v

/-- Dictionary lookup in an association list. -/
def alookup {α : Type} : List (Str × α) → Str → Option α
  | [], _ => none
  | (k2, v2) :: rest, k => if k2 = k then some v2 else alookup rest k

/-- The collections.defaultdict(list) pattern d[k].extend(xs): extend the list
bound to k in place, binding k to the empty list first when absent. -/
def dictExtend {α : Type} (d : List (Str × List α)) (k : Str) (xs : List α) :
    List (Str × List α) :=
  match alookup d k with
  | some v => dictUpsert d k (v ++ xs)
  | none => d ++ [(k, xs)]

/-- Python set.add on the insertion-ordered duplicate-free list model. -/
def setAdd {α : Type} [DecidableEq α] (s : List α) (x : α) : List α :=
  if x ∈ s then s else s ++ [x]

/-- Deduplicate a list keeping the first occurrence of each element. -/
def dedupFirst {α : Type} [DecidableEq α] (l : List α) : List α :=
  l.foldl setAdd []

/-! Embedding of src/utils/dd_to_csv.py. -/

/-- Dictionaries from a name to a collection of rows or tuples. -/
abbrev RowDict : Type := List (Str × List (List Str))

/-- The decoration following a parameter name in a dd file. The full pattern
removed by parse_parameter_values_from_file is the space character followed by
these characters: quote, space, quote, slash. -/
def paramDecorTail : Str := quoteChar :: ' ' :: quoteChar :: '/' :: []

/-- Strip the name decoration: Python name.replace(pattern, empty) where the
pattern is space quote space quote slash. -/
def stripParamDecor (s : Str) : Str := replaceSub ' ' paramDecorTail [] s

/-- Quote handling for one key component of a parameter row: the component is
kept intact when it contains a space, otherwise surrounding single-quote
characters are stripped (dd_to_csv.py line 64). -/
def qstrip (a : Str) : Str := if ' ' ∈ a then a else stripAll [quoteChar] a

/-- Parameter-block row parser (dd_to_csv.py lines 57-71): split the row on
single spaces; one token is a bare scalar value, two tokens are a dot-compound
key followed by a value, any other count raises ValueError. -/
def parseParamRow (line : Str) : Except String (List Str) :=
  match splitChar ' ' line with
  | [w] => .ok [w]
  | [k, v] => .ok (((splitChar '.' k).map qstrip) ++ [v])
  | _ =>
    .error ("ValueError: Unexpected number of spaces in parameter value setting: "
      ++ String.mk line)

/-- Advance past blank lines and return the first non-blank line together with
the lines after it; running off the end of the file is an IndexError. -/
def skipBlanks : List Str → Except String (Str × List Str)
  | [] => .error "IndexError: list index out of range"
  | l :: rest => if trimWS l = [] then skipBlanks rest else .ok (l, rest)

/-- Read parameter rows until a line starting with the slash character or an
empty line; return the parsed rows, the terminating line and the lines after
it. Running off the end of the file is an IndexError. -/
def readParamRows : List Str → Except String (List (List Str) × Str × List Str)
  | [] => .error "IndexError: list index out of range"
  | l :: rest =>
    if strStartsWith (str "/") l = true ∨ l = [] then .ok ([], l, rest)
    else
      match parseParamRow l with
      | .error e => .error e
      | .ok row =>
        match readParamRows rest with
        | .error e => .error e
        | .ok (rows, t, r) => .ok (row :: rows, t, r)

/-- Append a word to the last part, as Python parts[-1].append(word). -/
def pushLast (parts : List (List Str)) (w : Str) : List (List Str) :=
  match parts with
  | [] => [[w]]
  | _ => parts.dropLast ++ [parts.getLastD [] ++ [w]]

/-- Set-row tokenization (dd_to_csv.py lines 90-100): split the row on the
single-quote character, then fold the fragments into logical words: whitespace
fragments close the current word, fragments ending in a space close it after a
strip, and every other fragment is appended to the current word. -/
def setRowWords (line : Str) : List Str :=
  let parts := (splitChar quoteChar line).foldl
    (fun parts word =>
      if word = [] then parts
      else if word.all isPyWS then parts ++ [[]]
      else if word.getLast? = some ' ' then pushLast parts (trimWS word) ++ [[]]
      else pushLast parts word)
    [[]]
  parts.map (fun part => part.flatten)

/-- Set-block row parser (dd_to_csv.py lines 90-110): one logical word is a
dot-compound key, two words append a trailing description, more raise
ValueError. -/
def parseSetRow (line : Str) : Except String (List Str) :=
  match setRowWords line with
  | [] => .error "IndexError: list index out of range"
  | w0 :: restw =>
    let attributes := splitChar '.' w0
    match restw with
    | [] => .ok attributes
    | [text] => .ok (attributes ++ [text])
    | _ =>
      .error ("ValueError: Unexpected number of spaces in set value setting: "
        ++ String.mk line)

/-- Read set rows until a line starting with the slash character or an empty
line, accumulating tuples into a deduplicating collection. -/
def readSetRows : List Str → List (List Str) →
    Except String (List (List Str) × Str × List Str)
  | [], _ => .error "IndexError: list index out of range"
  | l :: rest, sd =>
    if strStartsWith (str "/") l = true ∨ l = [] then .ok (sd, l, rest)
    else
      match parseSetRow l with
      | .error e => .error e
      | .ok tup => readSetRows rest (setAdd sd tup)

/-- PARAMETER branch of one iteration of the scanning loop (dd_to_csv.py lines
43-75): when the current line starts with PARAMETER, skip blanks, strip the
name decoration, read the rows and bind the name; the returned triple is the
line the cursor then rests on, the lines after it, and the updated parameter
dictionary. A line not opening a parameter block is returned unchanged. -/
def paramStep (cur : Str) (rest : List Str) (p : RowDict) :
    Except String (Str × List Str × RowDict) :=
  if strStartsWith (str "PARAMETER") cur then
    match skipBlanks rest with
    | .error e => .error e
    | .ok (nameLine, r1) =>
      match readParamRows r1 with
      | .error e => .error e
      | .ok (rows, t, r2) => .ok (t, r2, dictUpsert p (stripParamDecor nameLine) rows)
  else .ok (cur, rest, p)

/-- SET branch of one iteration of the scanning loop (dd_to_csv.py lines
77-117): when the line the cursor rests on starts with SET, take the set name
as the second space-separated token, skip blanks, require an opening slash
line, read the deduplicated tuples, and either union them into the existing
collection of that name or bind the name to them. -/
def setStep (cur2 : Str) (rest2 : List Str) (s : RowDict) :
    Except String (List Str × RowDict) :=
  if strStartsWith (str "SET") cur2 then
    match splitChar ' ' cur2 with
    | [_, name] =>
      match skipBlanks rest2 with
      | .error e => .error e
      | .ok (l2, r3) =>
        if strStartsWith (str "/") l2 then
          match readSetRows r3 [] with
          | .error e => .error e
          | .ok (sd, _, r4) =>
            match alookup s name with
            | some old => .ok (r4, dictUpsert s name (sd.foldl setAdd old))
            | none => .ok (r4, dictUpsert s name sd)
        else .error "AssertionError"
    | _ => .error ("ValueError: unpacking failed on SET line: " ++ String.mk cur2)
  else .ok (rest2, s)

/-- Main scanning loop of parse_parameter_values_from_file (dd_to_csv.py lines
42-119). One fuel unit is spent per outer iteration; since every iteration
consumes at least one line, fuel equal to the number of lines is enough. The
final step of each iteration, advancing past the line the cursor rests on,
models the index increment closing the Python loop body. -/
def ppvGo : Nat → List Str → RowDict → RowDict → Except String (RowDict × RowDict)
  | 0, _, _, _ => .error "fuel exhausted"
  | _ + 1, [], p, s => .ok (p, s)
  | fuel + 1, cur :: rest, p, s =>
    match paramStep cur rest p with
    | .error e => .error e
    | .ok (cur2, rest2, p2) =>
      match setStep cur2 rest2 s with
      | .error e => .error e
      | .ok (rest3, s2) => ppvGo fuel rest3 p2 s2

/-- parse_parameter_values_from_file (dd_to_csv.py lines 12-121) on the list of
lines of one dd file, newline characters already removed as the source does
with rstrip. Returns the parameter dictionary and the set dictionary. -/
def parse_parameter_values_from_file (lines : List Str) :
    Except String (RowDict × RowDict) :=
  ppvGo (lines.length + 1) lines [] []

/-- Validation and emission for one named table (dd_to_csv.py lines 138-153):
look up the header, check every row length against the header length, then
build the projected table. The empty-row-list error models the fact that
np.asarray of an empty list is one-dimensional, so the two-dimensional slice
taken on it raises IndexError. -/
def saveTable (name : Str) (rows : List (List Str)) (headers : List (Str × List Str)) :
    Except String (Str × List Str × List (List Str)) :=
  match alookup headers name with
  | none =>
    .error ("ValueError: Could not find mapping for " ++ String.mk name
      ++ " in mapping file.")
  | some columns =>
    match rows.find? (fun r => r.length != columns.length) with
    | some r =>
      .error ("ValueError: Mismatched number of columns for param " ++ String.mk name
        ++ " between data (" ++ toString r.length ++ ") and mapping ("
        ++ toString columns.length ++ ")")
    | none =>
      if rows = [] then
        .error "IndexError: too many indices for array"
      else
        .ok (name, columns, rows.map (fun r => r.take columns.length))

/-- save_data_with_headers (dd_to_csv.py lines 124-155), with the in-memory
table list in place of the csv files it writes: process every table of the data
dictionary in order, stopping at the first error. -/
def save_data_with_headers : List (Str × List (List Str)) → List (Str × List Str) →
    Except String (List (Str × List Str × List (List Str)))
  | [], _ => .ok []
  | (n, rows) :: rest, headers =>
    match saveTable n rows headers with
    | .error e => .error e
    | .ok t =>
      match save_data_with_headers rest headers with
      | .error e => .error e
      | .ok ts => .ok (t :: ts)

/-- Merging step of convert_dd_to_tabular (dd_to_csv.py lines 178-189): both
global collections are defaultdict(list) and both are extended with the
per-file data, parameters and sets alike. -/
def mergeFileData (acc : RowDict × RowDict) (r : RowDict × RowDict) :
    RowDict × RowDict :=
  (r.1.foldl (fun d pr => dictExtend d pr.1 pr.2) acc.1,
   r.2.foldl (fun d pr => dictExtend d pr.1 pr.2) acc.2)

/-- convert_dd_to_tabular (dd_to_csv.py lines 173-216) up to the point where
the merged collections are handed to save_data_with_headers: parse every dd
file in order and merge the per-file results into the global collections. -/
def convert_dd_to_tabular (files : List (List Str)) :
    Except String (RowDict × RowDict) :=
  files.foldlM
    (fun acc lines => (parse_parameter_values_from_file lines).map (mergeFileData acc))
    ([], [])

example : parse_parameter_values_from_file
    ((str "SET S") :: (str "/") :: (quoteChar :: 'X' :: quoteChar :: []) :: (str "/") :: []) =
    .ok ([], [(str "S", [[str "X"]])]) := by decide

example : splitChar ' ' (str "a b") = [str "a", str "b"] := by decide

example : stripParamDecor ('M' :: 'P' :: ' ' :: quoteChar :: ' ' :: quoteChar :: '/' :: []) =
    str "MP" := by decide

/-! Embedding of src/xl2times/datatypes.py. -/

/-- Compiled mapping rule (datatypes.py class TimesXlMap). -/
structure TimesXlMap where
  times_name : Str
  times_cols : List Str
  xl_name : Str
  xl_cols : List Str
  col_map : List (Str × Str)
  filter_rows : List (Str × Str)
deriving DecidableEq

/-- Filter-predicate collection of one grammar line (datatypes.py lines
308-312): every token containing a colon is split on the colon into exactly two
pieces, with a lower-cased stripped key and a stripped value. -/
def buildFilterRows (xl_cols : List Str) : Except String (List (Str × Str)) :=
  xl_cols.foldlM
    (fun d s =>
      if s.contains ':' then
        match splitChar ':' s with
        | [col_name, col_val] =>
          .ok (dictUpsert d (toLowerStr (trimWS col_name)) (trimWS col_val))
        | _ => .error ("ValueError: unpacking failed on filter token: " ++ String.mk s)
      else .ok d)
    []

/-- Rule construction for a mapping-grammar line once both sides are split
into a name and a column list (datatypes.py lines 315-334): drop placeholder
lines (returning none), enforce the column-count assertion, zip the output
columns with the remaining input columns into the rename map, and upper-case a
tag-marked input name. -/
def mkMappingEntry (times_name : Str) (times_cols : List Str) (xl_name : Str)
    (xl_cols : List Str) (filter_rows : List (Str × Str)) :
    Except String (Option TimesXlMap) :=
  if (xl_name != str "~TODO")
      && ! (xl_cols.any (fun c => strStartsWith (str "TODO") c)) then
    if times_cols.length ≤ xl_cols.length then
      .ok (some
        { times_name := times_name, times_cols := times_cols,
          xl_name := if strStartsWith (str "~") xl_name then toUpperStr xl_name else xl_name,
          xl_cols := xl_cols,
          col_map := (times_cols.zip xl_cols).foldl (fun d p => dictUpsert d p.1 p.2) [],
          filter_rows := filter_rows })
    else .error "AssertionError: more output columns than input columns"
  else .ok none

/-- Compilation of one mapping-grammar line (datatypes.py lines 301-336):
split on the assignment separator, split the sides on brackets and parentheses,
collect filter tokens, lower-case the remaining input columns, and build the
rule. -/
def processMappingLine (line : Str) : Except String (Option TimesXlMap) :=
  match splitOnSub ' ' (str "= ") line with
  | [times, xl] =>
    match (splitIn ['[', ']'] times).filter (fun p => p != []) with
    | [times_name, times_cols_str] =>
      match (splitIn ['(', ')'] xl).filter (fun p => p != []) with
      | [xl_name, xl_cols_str] =>
        match buildFilterRows (splitChar ',' xl_cols_str) with
        | .error e => .error e
        | .ok filter_rows =>
          mkMappingEntry times_name (splitChar ',' times_cols_str) xl_name
            (((splitChar ',' xl_cols_str).filter (fun s => ! s.contains ':')).map toLowerStr)
            filter_rows
      | _ => .error ("ValueError: unpacking failed on: " ++ String.mk xl)
    | _ => .error ("ValueError: unpacking failed on: " ++ String.mk times)
  | _ => .error ("ValueError: unpacking failed on: " ++ String.mk line)

/-- Config._read_mappings (datatypes.py lines 274-342) on the lines of the
mapping file: read lines until a blank line or the end of the file, compile
each, and return the compiled rules together with the count of dropped
placeholder lines that the source reports in its summary warning. -/
def read_mappings : List Str → Except String (List TimesXlMap × Nat)
  | [] => .ok ([], 0)
  | l :: rest =>
    let line := rstripWS l
    if line = [] then .ok ([], 0)
    else
      match processMappingLine line with
      | .error e => .error e
      | .ok res =>
        match read_mappings rest with
        | .error e => .error e
        | .ok (ms, d) =>
          match res with
          | some m => .ok (m :: ms, d)
          | none => .ok (ms, d + 1)

/-- The closed catalog of accepted table tags (datatypes.py class Tag). -/
def tagCatalog : List Str :=
  [str "~ACTIVEPDEF", str "~BOOKREGIONS_MAP", str "~COMAGG", str "~COMEMI",
   str "~CURRENCIES", str "~DEFAULTYEAR", str "~DEFUNITS", str "~ENDYEAR",
   str "~FI_COMM", str "~FI_PROCESS", str "~FI_T", str "~MILESTONEYEARS",
   str "~STARTYEAR", str "~TFM_AVA", str "~TFM_COMGRP", str "~TFM_CSETS",
   str "~TFM_DINS", str "~TFM_DINS-AT", str "~TFM_DINS-TS", str "~TFM_DINS-TSL",
   str "~TFM_FILL", str "~TFM_FILL-R", str "~TFM_INS", str "~TFM_INS-AT",
   str "~TFM_INS-TS", str "~TFM_INS-TSL", str "~TFM_INS-TXT", str "~TFM_MIG",
   str "~TFM_PSETS", str "~TFM_TOPDINS", str "~TFM_TOPINS", str "~TFM_UPD",
   str "~TFM_UPD-AT", str "~TFM_UPD-TS", str "~TIMEPERIODS", str "~TIMESLICES",
   str "~TRADELINKS", str "~TRADELINKS_DINS", str "~UC_SETS", str "~UC_T",
   str "~UNITCONVERSION"]

/-- The to_tag helper of Config._read_veda_tags_info: prepend the tag marker to
the upper-cased name and require membership in the tag catalog, as the Tag
constructor does (a ValueError otherwise). -/
def toTag (s : Str) : Except String Str :=
  let t := '~' :: toUpperStr s
  if t ∈ tagCatalog then .ok t
  else .error ("ValueError: not a valid Tag: " ++ String.mk t)

/-- One valid-field descriptor of the tag-definition source. -/
structure ValidField where
  name : Str
  aliases : List Str
  use_name : Option Str
  row_ignore_symbol : List Str
deriving DecidableEq

/-- One tag record of the tag-definition source. -/
structure VedaTagInfo where
  tag_name : Str
  valid_fields : Option (List ValidField)
  base_tag : Option Str
deriving DecidableEq

/-- State of Config._read_veda_tags_info. Python assigns dictionary and set
objects by reference, so the three result tables are modelled as stores of
objects indexed by object identity plus per-tag bindings from tag to object
index. valid_column_names and row_comment_chars are plain dictionaries whose
per-tag entries are rebound to fresh objects whenever a tag declares fields;
known_cols is a defaultdict(set) whose per-tag set objects are only ever
mutated in place. -/
structure TagsState where
  vcnStore : List (List (Str × Str))
  vcn : List (Str × Nat)
  rccStore : List (List (Str × List Str))
  rcc : List (Str × Nat)
  kcStore : List (List Str)
  kc : List (Str × Nat)
  discard : List Str
deriving DecidableEq

/-- The empty state of Config._read_veda_tags_info. -/
def initTagsState : TagsState :=
  { vcnStore := [], vcn := [], rccStore := [], rcc := [],
    kcStore := [], kc := [], discard := [] }

/-- defaultdict(set) access known_cols[tag]: return the index of the bound set
object, creating and binding a fresh empty one when the tag is unbound. -/
def kcAccess (st : TagsState) (tag : Str) : Nat × TagsState :=
  match alookup st.kc tag with
  | some i => (i, st)
  | none =>
    (st.kcStore.length,
     { st with kcStore := st.kcStore ++ [[]],
               kc := dictUpsert st.kc tag st.kcStore.length })

/-- Processing of one valid-field descriptor (datatypes.py lines 382-399) for
the tag whose alias-table object has index iv and whose comment-table object
has index ir: resolve the canonical field name and the accepted alias names,
add the canonical name to the known-column set of the tag, and record every
accepted name in the alias table and the canonical name in the comment table. -/
def procField (tag : Str) (iv ir : Nat) (st : TagsState) (vf : ValidField) : TagsState :=
  let pair :=
    match vf.use_name with
    | some u => if u ≠ vf.name then (u, vf.aliases ++ [vf.name]) else (vf.name, vf.aliases)
    | none => (vf.name, vf.aliases)
  let field_name := pair.1
  let valid_field_names := pair.2
  let ia := kcAccess st tag
  let ik := ia.1
  let st1 := ia.2
  let st2 :=
    { st1 with kcStore := st1.kcStore.set ik (setAdd (st1.kcStore.getD ik []) field_name) }
  valid_field_names.foldl
    (fun st vfn =>
      { st with
          vcnStore := st.vcnStore.set iv (dictUpsert (st.vcnStore.getD iv []) vfn field_name),
          rccStore := st.rccStore.set ir
            (dictUpsert (st.rccStore.getD ir []) field_name vf.row_ignore_symbol) })
    st2

/-- Processing of one tag record (datatypes.py lines 374-410): a tag with
valid fields is appended to the discard list and gets fresh alias-table and
comment-table objects which the field loop populates; a tag with a base tag is
bound to the very objects of its base for whichever of the three structures the
base already has. -/
def procTagInfo (st : TagsState) (ti : VedaTagInfo) : Except String TagsState :=
  match toTag ti.tag_name with
  | .error e => .error e
  | .ok tag =>
    let st1 :=
      match ti.valid_fields with
      | some vfs =>
        let stA := { st with discard := st.discard ++ [tag] }
        let iv := stA.vcnStore.length
        let stB := { stA with vcnStore := stA.vcnStore ++ [[]],
                              vcn := dictUpsert stA.vcn tag iv }
        let ir := stB.rccStore.length
        let stC := { stB with rccStore := stB.rccStore ++ [[]],
                              rcc := dictUpsert stB.rcc tag ir }
        vfs.foldl (procField tag iv ir) stC
      | none => st
    match ti.base_tag with
    | some b =>
      match toTag b with
      | .error e => .error e
      | .ok base =>
        let st2 :=
          match alookup st1.vcn base with
          | some i =>
            { st1 with vcn := dictUpsert st1.vcn tag i, discard := st1.discard ++ [tag] }
          | none => st1
        let st3 :=
          match alookup st2.rcc base with
          | some i => { st2 with rcc := dictUpsert st2.rcc tag i }
          | none => st2
        let st4 :=
          match alookup st3.kc base with
          | some i => { st3 with kc := dictUpsert st3.kc tag i }
          | none => st3
        .ok st4
    | none => .ok st1
  
/-- Config._read_veda_tags_info (datatypes.py lines 345-412) on the records of
the tag-definition source: the source first converts every declared tag name
for the completeness warning, then processes the records in order. -/
def read_veda_tags_info (infos : List VedaTagInfo) : Except String TagsState :=
  match infos.mapM (fun ti => toTag ti.tag_name) with
  | .error e => .error e
  | .ok _ => infos.foldlM procTagInfo initTagsState

/-- Value of the compiled alias table of a tag: the dictionary object its
binding designates. -/
def vcnValue (st : TagsState) (tag : Str) : Option (List (Str × Str)) :=
  (alookup st.vcn tag).map (fun i => st.vcnStore.getD i [])

/-- Value of the compiled comment-char table of a tag. -/
def rccValue (st : TagsState) (tag : Str) : Option (List (Str × List Str)) :=
  (alookup st.rcc tag).map (fun i => st.rccStore.getD i [])

/-- Value of the compiled known-column set of a tag. -/
def kcValue (st : TagsState) (tag : Str) : Option (List Str) :=
  (alookup st.kc tag).map (fun i => st.kcStore.getD i [])

/-- Rule-merge step of Config.__init__ (datatypes.py lines 215-218) as the
ordered dictionary it builds: the grammar-derived rules are inserted first,
keyed by output-table name, then the attribute-derived rules override by key. -/
def configMergeDict (grammarMaps paramMappings : List TimesXlMap) :
    List (Str × TimesXlMap) :=
  paramMappings.foldl (fun d m => dictUpsert d m.times_name m)
    (grammarMaps.foldl (fun d m => dictUpsert d m.times_name m) [])

/-- Final value of Config.times_xl_maps (datatypes.py line 218): the values of
the merged ordered dictionary. -/
def configMergedXlMaps (grammarMaps paramMappings : List TimesXlMap) :
    List TimesXlMap :=
  (configMergeDict grammarMaps paramMappings).map Prod.snd

/-- Config._read_regions_filter (datatypes.py lines 456-460): the empty string
gives the empty set, any other string is stripped of leading and trailing
spaces, upper-cased, split on commas and collected into a set. -/
def read_regions_filter (regions_list : Str) : List Str :=
  if regions_list = [] then []
  else dedupFirst (splitChar ',' (toUpperStr (stripAll [' '] regions_list)))

example : read_regions_filter (str "a , b") = [str "A ", str " B"] := by decide

example : read_mappings [str "OUT[A,VALUE] = ~TAG(col1,col2,Attribute:FOO)"] =
    .ok ([{ times_name := str "OUT", times_cols := [str "A", str "VALUE"],
            xl_name := str "~TAG", xl_cols := [str "col1", str "col2"],
            col_map := [(str "A", str "col1"), (str "VALUE", str "col2")],
            filter_rows := [(str "attribute", str "FOO")] }], 0) := by decide

/-! Theorems for the claims. -/

/-- C7: the mapping grammar line OUT[A,VALUE] = ~TAG(col1,col2,Attribute:FOO)
compiles to exactly one rule with output name OUT, output columns A and VALUE,
input tag ~TAG, input columns col1 and col2, filter predicate attribute = FOO,
and column-rename map A to col1 and VALUE to col2, with no dropped lines. -/
theorem c7_mapping_grammar_example :
    read_mappings [str "OUT[A,VALUE] = ~TAG(col1,col2,Attribute:FOO)"] =
    .ok ([{ times_name := str "OUT", times_cols := [str "A", str "VALUE"],
            xl_name := str "~TAG", xl_cols := [str "col1", str "col2"],
            col_map := [(str "A", str "col1"), (str "VALUE", str "col2")],
            filter_rows := [(str "attribute", str "FOO")] }], 0) := by decide

/-- C3, evaluation at the failing input: a line whose input-column token starts
with TODO is compiled into a rule instead of being dropped and counted, because
the source lower-cases the input columns before testing startswith TODO, while
a line whose input tag is ~TODO is indeed dropped and counted. -/
theorem c3_todo_column_line_retained :
    read_mappings [str "OUT[A] = ~TAG(TODOcol)"] =
      .ok ([{ times_name := str "OUT", times_cols := [str "A"],
              xl_name := str "~TAG", xl_cols := [str "todocol"],
              col_map := [(str "A", str "todocol")], filter_rows := [] }], 0)
    ∧ read_mappings [str "OUT[A] = ~TODO(col1)"] = .ok ([], 1) :=
  ⟨by decide, by decide⟩

/-- Field descriptor used in the C2 scenario: canonical name csets with alias
commodity. -/
def vfCsets : ValidField :=
  { name := str "csets", aliases := [str "commodity"], use_name := none,
    row_ignore_symbol := [str "*"] }

/-- Field descriptor used in the C2 scenario: canonical name region with alias
reg. -/
def vfRegion : ValidField :=
  { name := str "region", aliases := [str "reg"], use_name := none,
    row_ignore_symbol := [str "*"] }

/-- Base-tag record of the C2 scenario, declaring the csets field. -/
def tiBase1 : VedaTagInfo :=
  { tag_name := str "fi_comm", valid_fields := some [vfCsets], base_tag := none }

/-- Dependent-tag record of the C2 scenario, declaring only a base tag. -/
def tiDep : VedaTagInfo :=
  { tag_name := str "fi_process", valid_fields := none, base_tag := some (str "fi_comm") }

/-- Re-declaration of the base tag of the C2 scenario with a different field. -/
def tiBase2 : VedaTagInfo :=
  { tag_name := str "fi_comm", valid_fields := some [vfRegion], base_tag := none }

/-- Result state of read_veda_tags_info, defaulting to the initial state on
error; the theorems that use it also assert that no error occurred. -/
def tagsResult (infos : List VedaTagInfo) : TagsState :=
  match read_veda_tags_info infos with
  | .ok st => st
  | .error _ => initTagsState

/-- C2, counterexample: the three compiled structures of a dependent tag are
not value copies. Compiling the base and the dependent alone leaves the
dependent with known-column set csets; appending one more record that only
re-declares the base changes the already-compiled known-column set of the
dependent to csets-region, because the two tags share one set object. -/
theorem c2_counterexample :
    (read_veda_tags_info [tiBase1, tiDep]).isOk = true
    ∧ (read_veda_tags_info [tiBase1, tiDep, tiBase2]).isOk = true
    ∧ kcValue (tagsResult [tiBase1, tiDep]) (str "~FI_PROCESS") = some [str "csets"]
    ∧ kcValue (tagsResult [tiBase1, tiDep, tiBase2]) (str "~FI_PROCESS")
        = some [str "csets", str "region"] :=
  ⟨by decide, by decide, by decide, by decide⟩

/-- C2, amended: at compile time the dependent tag is bound to the very same
three structures as its base, so the three values coincide; the binding is by
reference, not by value copy. A later re-declaration of the base rebinds the
base to fresh alias and comment tables, leaving the dependent alias and
comment tables unchanged, but it mutates the shared known-column set in place,
so the known-column set of the dependent gains the newly declared column. -/
theorem c2_amended :
    (vcnValue (tagsResult [tiBase1, tiDep]) (str "~FI_PROCESS")
        = vcnValue (tagsResult [tiBase1, tiDep]) (str "~FI_COMM")
      ∧ rccValue (tagsResult [tiBase1, tiDep]) (str "~FI_PROCESS")
        = rccValue (tagsResult [tiBase1, tiDep]) (str "~FI_COMM")
      ∧ kcValue (tagsResult [tiBase1, tiDep]) (str "~FI_PROCESS")
        = kcValue (tagsResult [tiBase1, tiDep]) (str "~FI_COMM"))
    ∧ (vcnValue (tagsResult [tiBase1, tiDep, tiBase2]) (str "~FI_PROCESS")
        = some [(str "commodity", str "csets")]
      ∧ vcnValue (tagsResult [tiBase1, tiDep, tiBase2]) (str "~FI_COMM")
        = some [(str "reg", str "region")]
      ∧ rccValue (tagsResult [tiBase1, tiDep, tiBase2]) (str "~FI_PROCESS")
        = some [(str "csets", [str "*"])]
      ∧ kcValue (tagsResult [tiBase1, tiDep, tiBase2]) (str "~FI_PROCESS")
        = some [str "csets", str "region"]
      ∧ kcValue (tagsResult [tiBase1, tiDep, tiBase2]) (str "~FI_COMM")
        = some [str "csets", str "region"]) :=
  ⟨⟨by decide, by decide, by decide⟩, by decide, by decide, by decide, by decide, by decide⟩

/-- Adding an element to the set model preserves duplicate-freedom. -/
theorem setAdd_nodup {α : Type} [DecidableEq α] {l : List α} (h : l.Nodup) (x : α) :
    (setAdd l x).Nodup := by
  unfold setAdd
  split
  · exact h
  · next hx => simp [List.nodup_append, h, hx]

/-- Folding set additions over any list preserves duplicate-freedom. -/
theorem foldl_setAdd_nodup {α : Type} [DecidableEq α] (xs : List α) :
    ∀ (l : List α), l.Nodup → (List.foldl setAdd l xs).Nodup := by
  induction xs with
  | nil => intro l h; exact h
  | cons x xs ih => intro l h; exact ih _ (setAdd_nodup h x)

/-- The tuple collection produced by the set-row reader is duplicate-free
whenever the accumulator it starts from is. -/
theorem readSetRows_nodup :
    ∀ (rows : List Str) (acc : List (List Str)) (res : List (List Str) × Str × List Str),
      acc.Nodup → readSetRows rows acc = .ok res → res.1.Nodup := by
  intro rows
  induction rows with
  | nil => intro acc res _ hr; exact absurd hr (by simp [readSetRows])
  | cons l rest ih =>
    intro acc res h hr
    rw [readSetRows] at hr
    split at hr
    · cases hr; exact h
    · split at hr
      · cases hr
      · exact ih _ _ (setAdd_nodup h _) hr

/-- Every pair of an updated dictionary is either the inserted pair or was
already present. -/
theorem mem_dictUpsert {α : Type} (d : List (Str × α)) (k : Str) (v : α) :
    ∀ pr ∈ dictUpsert d k v, pr = (k, v) ∨ pr ∈ d := by
  induction d with
  | nil =>
    intro pr h
    simp only [dictUpsert, List.mem_singleton] at h
    exact Or.inl h
  | cons hd tl ih =>
    obtain ⟨k2, v2⟩ := hd
    intro pr h
    simp only [dictUpsert] at h
    split at h
    · next heq =>
      rcases List.mem_cons.mp h with h1 | h1
      · subst heq; exact Or.inl h1
      · exact Or.inr (List.mem_cons_of_mem _ h1)
    · rcases List.mem_cons.mp h with h1 | h1
      · subst h1; exact Or.inr (List.mem_cons_self _ _)
      · rcases ih pr h1 with h2 | h2
        · exact Or.inl h2
        · exact Or.inr (List.mem_cons_of_mem _ h2)

/-- A successful dictionary lookup comes from some stored pair. -/
theorem alookup_mem {α : Type} :
    ∀ (d : List (Str × α)) (k : Str) (v : α), alookup d k = some v →
      ∃ k2, (k2, v) ∈ d := by
  intro d
  induction d with
  | nil => intro k v h; exact absurd h (by simp [alookup])
  | cons hd tl ih =>
    obtain ⟨k2, v2⟩ := hd
    intro k v h
    simp only [alookup] at h
    split at h
    · cases h; exact ⟨k2, List.mem_cons_self _ _⟩
    · obtain ⟨k3, hm⟩ := ih k v h
      exact ⟨k3, List.mem_cons_of_mem _ hm⟩

/-- The SET branch preserves duplicate-freedom of every tuple collection in
the set dictionary. -/
theorem setStep_nodup (cur2 : Str) (rest2 : List Str) (s : RowDict)
    (res : List Str × RowDict) (hs : ∀ pr ∈ s, List.Nodup pr.2)
    (h : setStep cur2 rest2 s = .ok res) : ∀ pr ∈ res.2, List.Nodup pr.2 := by
  rw [setStep] at h
  split at h
  · split at h
    · split at h
      · cases h
      · split at h
        · split at h
          · cases h
          · split at h
            · next old hold =>
              cases h
              intro pr hpr
              rcases mem_dictUpsert _ _ _ pr hpr with h2 | h2
              · rw [h2]
                apply foldl_setAdd_nodup
                obtain ⟨k2, hm⟩ := alookup_mem _ _ _ hold
                exact hs _ hm
              · exact hs pr h2
            · next hold =>
              cases h
              intro pr hpr
              rcases mem_dictUpsert _ _ _ pr hpr with h2 | h2
              · rw [h2]
                exact readSetRows_nodup _ _ _ List.nodup_nil (by assumption)
              · exact hs pr h2
        · cases h
    · cases h
  · cases h
    exact hs

/-- The scanning loop preserves duplicate-freedom of every tuple collection in
the set dictionary. -/
theorem ppvGo_sets_nodup :
    ∀ (fuel : Nat) (lines : List Str) (p s : RowDict) (res : RowDict × RowDict),
      (∀ pr ∈ s, List.Nodup pr.2) → ppvGo fuel lines p s = .ok res →
      ∀ pr ∈ res.2, List.Nodup pr.2 := by
  intro fuel
  induction fuel with
  | zero => intro lines p s res _ h; exact absurd h (by simp [ppvGo])
  | succ n ih =>
    intro lines p s res hs h
    cases lines with
    | nil =>
      rw [ppvGo] at h
      cases h
      exact hs
    | cons cur rest =>
      rw [ppvGo] at h
      split at h
      · cases h
      · split at h
        · cases h
        · next rs2 hstep =>
          exact ih _ _ _ _ (setStep_nodup _ _ _ _ hs hstep) h

/-- A dd file declaring set S with the single tuple X. -/
def ddFileSetX : List Str :=
  [str "SET S", str "/", quoteChar :: 'X' :: quoteChar :: [], str "/"]

/-- A dd file declaring set T with the single tuple Y. -/
def ddFileSetY : List Str :=
  [str "SET T", str "/", quoteChar :: 'Y' :: quoteChar :: [], str "/"]

/-- C1, counterexample: two merged sources each declaring the same tuple X for
the same set name S produce a merged collection in which the tuple occurs
twice, not exactly once, because convert_dd_to_tabular concatenates the
per-source collections. -/
theorem c1_counterexample :
    convert_dd_to_tabular [ddFileSetX, ddFileSetX] =
      .ok ([], [(str "S", [[str "X"], [str "X"]])])
    ∧ List.count [str "X"] [[str "X"], [str "X"]] ≠ 1 :=
  ⟨by decide, by decide⟩

/-- C1, amended: within one source the compiled tuple collection of every set
name is duplicate-free, re-declarations of a set name in the same source being
unioned into the existing collection; but convert_dd_to_tabular concatenates
the per-source collections, so a tuple appearing in two merged sources occurs
twice in the collection handed to the writer. -/
theorem c1_amended :
    (∀ (lines : List Str) (p s : RowDict),
        parse_parameter_values_from_file lines = .ok (p, s) →
        ∀ pr ∈ s, List.Nodup pr.2)
    ∧ convert_dd_to_tabular [ddFileSetY, ddFileSetY] =
        .ok ([], [(str "T", [[str "Y"], [str "Y"]])]) := by
  constructor
  · intro lines p s h pr hpr
    exact ppvGo_sets_nodup _ lines [] [] (p, s) (by simp) h pr hpr
  · decide

/-- Witness for the amended C1 theorem at a concrete source. -/
theorem c1_amended_witness :
    ∀ pr ∈ [(str "S", [[str "X"]])], List.Nodup pr.2 :=
  c1_amended.1 ddFileSetX [] [(str "S", [[str "X"]])] (by decide)

/-- Splitting never yields an empty list of segments. -/
theorem splitChar_ne_nil (c : Char) : ∀ (s : Str), splitChar c s ≠ [] := by
  intro s
  induction s with
  | nil => simp [splitChar]
  | cons x xs ih =>
    rw [splitChar]
    split
    · simp
    · split <;> simp

/-- Folding set additions cannot empty a non-empty collection. -/
theorem foldl_setAdd_ne_nil {α : Type} [DecidableEq α] (xs : List α) :
    ∀ (l : List α), l ≠ [] → List.foldl setAdd l xs ≠ [] := by
  induction xs with
  | nil => intro l h; exact h
  | cons x xs ih =>
    intro l h
    rw [List.foldl_cons]
    apply ih
    unfold setAdd
    split
    · exact h
    · simp

/-- Deduplication keeps a non-empty list non-empty. -/
theorem dedupFirst_ne_nil {α : Type} [DecidableEq α] {l : List α} (h : l ≠ []) :
    dedupFirst l ≠ [] := by
  cases l with
  | nil => exact absurd rfl h
  | cons y ys =>
    unfold dedupFirst
    rw [List.foldl_cons]
    apply foldl_setAdd_ne_nil
    simp [setAdd]

/-- Stripping spaces from an all-space string leaves nothing. -/
theorem stripAll_space_eq_nil {s : Str} (h : ∀ c ∈ s, c = ' ') :
    stripAll [' '] s = [] := by
  unfold stripAll
  have h1 : s.dropWhile (List.contains [' ']) = [] := by
    rw [List.dropWhile_eq_nil_iff]
    intro x hx
    simp [h x hx]
  rw [h1]
  simp

/-- C10: the region filter returns the empty set exactly on the empty input
string; a non-empty all-space input gives the non-empty singleton containing
the empty region name; and the comma-separated segments keep the spaces
adjacent to commas, only whole-string spaces being stripped, as the concrete
instance with inner spaces shows, together with upper-casing. -/
theorem c10_regions_filter :
    read_regions_filter [] = []
    ∧ (∀ s : Str, s ≠ [] → read_regions_filter s ≠ [])
    ∧ (∀ s : Str, s ≠ [] → (∀ c ∈ s, c = ' ') → read_regions_filter s = [[]])
    ∧ read_regions_filter (str "a , b") = [str "A ", str " B"] := by
  refine ⟨rfl, ?_, ?_, by decide⟩
  · intro s hs
    rw [read_regions_filter, if_neg hs]
    exact dedupFirst_ne_nil (splitChar_ne_nil _ _)
  · intro s hs hsp
    rw [read_regions_filter, if_neg hs, stripAll_space_eq_nil hsp]
    decide

/-- Witness for C10 at concrete inputs: a one-space input gives the singleton
of the empty name, and a non-empty input gives a non-empty set. -/
theorem c10_regions_filter_witness :
    read_regions_filter (str " ") = [[]] ∧ read_regions_filter (str "X") ≠ [] :=
  ⟨c10_regions_filter.2.2.1 (str " ") (by decide) (by decide),
   c10_regions_filter.2.1 (str "X") (by decide)⟩

/-- Looking up an updated dictionary: the inserted key now maps to the new
value, every other key is unaffected. -/
theorem alookup_dictUpsert {α : Type} (d : List (Str × α)) (k q : Str) (v : α) :
    alookup (dictUpsert d k v) q = if k = q then some v else alookup d q := by
  induction d with
  | nil => simp [dictUpsert, alookup]
  | cons hd tl ih =>
    obtain ⟨k2, v2⟩ := hd
    by_cases h : k2 = k
    · subst h
      simp only [dictUpsert, if_pos rfl, alookup]
      by_cases hq : k2 = q
      · subst hq; simp
      · simp [hq]
    · simp only [dictUpsert, if_neg h, alookup]
      by_cases hq : k2 = q
      · subst hq
        have hkq : ¬ k = k2 := fun hc => h hc.symm
        simp [hkq]
      · simp [hq, ih]

/-- The key list of an updated dictionary is the old key list with the new key
appended when absent. -/
theorem keys_dictUpsert {α : Type} (d : List (Str × α)) (k : Str) (v : α) :
    (dictUpsert d k v).map Prod.fst = setAdd (d.map Prod.fst) k := by
  induction d with
  | nil => simp [dictUpsert, setAdd]
  | cons hd tl ih =>
    obtain ⟨k2, v2⟩ := hd
    by_cases h : k2 = k
    · subst h
      simp only [dictUpsert, eq_self_iff_true, if_true, List.map_cons]
      rw [setAdd, if_pos (List.mem_cons_self _ _)]
    · simp only [dictUpsert, if_neg h, List.map_cons, ih]
      have hne : ¬ k = k2 := fun hc => h hc.symm
      by_cases hm : k ∈ tl.map Prod.fst
      · rw [setAdd, if_pos hm, setAdd, if_pos (List.mem_cons_of_mem _ hm)]
      · have hm2 : ¬ k ∈ k2 :: tl.map Prod.fst := by
          intro hc
          rcases List.mem_cons.mp hc with hc1 | hc1
          · exact hne hc1
          · exact hm hc1
        rw [setAdd, if_neg hm, setAdd, if_neg hm2, List.cons_append]

/-- Last rule of a rule list carrying a given output-table name, scanning left
to right so that a later rule overrides an earlier one, as dictionary
insertion does. -/
def lastNamed (n : Str) (l : List TimesXlMap) : Option TimesXlMap :=
  l.foldl (fun acc m => if m.times_name = n then some m else acc) none

/-- Folding the name scan from any accumulator: a rule of the list with the
name wins, otherwise the accumulator survives. -/
theorem foldl_scan_acc (n : Str) (ms : List TimesXlMap) :
    ∀ (acc : Option TimesXlMap),
      ms.foldl (fun acc m => if m.times_name = n then some m else acc) acc =
        match lastNamed n ms with
        | some x => some x
        | none => acc := by
  induction ms with
  | nil => intro acc; rfl
  | cons m ms ih =>
    intro acc
    simp only [lastNamed, List.foldl_cons]
    rw [ih, ih]
    cases hl : lastNamed n ms with
    | some x => rfl
    | none => by_cases h : m.times_name = n <;> simp [h]

/-- Looking up the dictionary built by folding rule inserts over a rule list:
the last rule with the queried name wins, the seed dictionary answering only
when the list has no rule of that name. -/
theorem alookup_foldl_upsert (n : Str) (ms : List TimesXlMap) :
    ∀ (d : List (Str × TimesXlMap)),
      alookup (ms.foldl (fun d m => dictUpsert d m.times_name m) d) n =
        match lastNamed n ms with
        | some x => some x
        | none => alookup d n := by
  induction ms with
  | nil => intro d; rfl
  | cons m ms ih =>
    intro d
    rw [List.foldl_cons, ih]
    have hcons : lastNamed n (m :: ms) =
        match lastNamed n ms with
        | some x => some x
        | none => if m.times_name = n then some m else none := by
      have hstep : lastNamed n (m :: ms) =
          ms.foldl (fun acc m => if m.times_name = n then some m else acc)
            (if m.times_name = n then some m else none) := rfl
      rw [hstep, foldl_scan_acc]
    rw [hcons, alookup_dictUpsert]
    cases hl : lastNamed n ms with
    | some x => rfl
    | none =>
      by_cases h : m.times_name = n
      · simp [h]
      · have h2 : ¬ m.times_name = n := h
        simp [h2]

/-- The key list of the dictionary built by folding rule inserts: the seed
keys followed by the still-unseen rule names in first-seen order. -/
theorem keys_foldl_upsert (ms : List TimesXlMap) :
    ∀ (d : List (Str × TimesXlMap)),
      (ms.foldl (fun d m => dictUpsert d m.times_name m) d).map Prod.fst =
        List.foldl setAdd (d.map Prod.fst) (ms.map TimesXlMap.times_name) := by
  induction ms with
  | nil => intro d; simp
  | cons m ms ih =>
    intro d
    rw [List.foldl_cons, ih, keys_dictUpsert, List.map_cons, List.foldl_cons]

/-- Every pair of the merged dictionary has its key equal to the output-table
name of the rule it carries. -/
theorem mergeDict_key_eq (ms : List TimesXlMap) :
    ∀ (d : List (Str × TimesXlMap)),
      (∀ pr ∈ d, pr.1 = pr.2.times_name) →
      ∀ pr ∈ ms.foldl (fun d m => dictUpsert d m.times_name m) d,
        pr.1 = pr.2.times_name := by
  induction ms with
  | nil => intro d hd; exact hd
  | cons m ms ih =>
    intro d hd
    rw [List.foldl_cons]
    apply ih
    intro pr hpr
    rcases mem_dictUpsert _ _ _ pr hpr with h | h
    · rw [h]
    · exact hd pr h

/-- C8: the merged rule list of Config has exactly one rule per output-table
name (its name list is duplicate-free); the names appear in first-seen order
over the grammar-derived rules followed by the attribute-derived rules; and the
rule stored under a name is the last attribute-derived rule of that name when
one exists, else the last grammar-derived rule of that name. -/
theorem c8_merged_maps (g p : List TimesXlMap) :
    ((configMergedXlMaps g p).map TimesXlMap.times_name).Nodup
    ∧ (configMergedXlMaps g p).map TimesXlMap.times_name =
        dedupFirst ((g ++ p).map TimesXlMap.times_name)
    ∧ ∀ n, alookup (configMergeDict g p) n =
        match lastNamed n p with
        | some x => some x
        | none => lastNamed n g := by
  have hkeyeq : ∀ pr ∈ configMergeDict g p, pr.1 = pr.2.times_name := by
    simp only [configMergeDict]
    apply mergeDict_key_eq
    apply mergeDict_key_eq
    intro pr hpr
    simp at hpr
  have hnames : (configMergedXlMaps g p).map TimesXlMap.times_name =
      (configMergeDict g p).map Prod.fst := by
    rw [configMergedXlMaps, List.map_map]
    apply List.map_congr_left
    intro pr hpr
    exact (hkeyeq pr hpr).symm
  have hkeys : (configMergeDict g p).map Prod.fst =
      dedupFirst ((g ++ p).map TimesXlMap.times_name) := by
    rw [configMergeDict, keys_foldl_upsert, keys_foldl_upsert]
    rw [dedupFirst, List.map_append, List.foldl_append]
    simp
  refine ⟨?_, ?_, ?_⟩
  · rw [hnames, hkeys]
    exact foldl_setAdd_nodup _ _ List.nodup_nil
  · rw [hnames, hkeys]
  · intro n
    rw [configMergeDict, alookup_foldl_upsert, alookup_foldl_upsert]
    cases lastNamed n p with
    | some x => rfl
    | none => cases lastNamed n g <;> rfl

/-- Membership survives folding set additions, and added elements are members. -/
theorem mem_foldl_setAdd {α : Type} [DecidableEq α] (xs : List α) :
    ∀ (l : List α) (x : α), (x ∈ l ∨ x ∈ xs) → x ∈ List.foldl setAdd l xs := by
  induction xs with
  | nil =>
    intro l x h
    rcases h with h | h
    · exact h
    · simp at h
  | cons y ys ih =>
    intro l x h
    rw [List.foldl_cons]
    apply ih
    rcases h with h | h
    · left
      rw [setAdd]
      split
      · exact h
      · exact List.mem_append_left _ h
    · rcases List.mem_cons.mp h with h1 | h1
      · subst h1
        left
        rw [setAdd]
        split
        · assumption
        · exact List.mem_append_right _ (List.mem_singleton.mpr rfl)
      · exact Or.inr h1
  
/-- A key present in the key list of a dictionary is found by lookup. -/
theorem alookup_isSome_of_mem_keys {α : Type} :
    ∀ (d : List (Str × α)) (k : Str), k ∈ d.map Prod.fst → (alookup d k).isSome := by
  intro d
  induction d with
  | nil => intro k h; simp at h
  | cons hd tl ih =>
    obtain ⟨k2, v2⟩ := hd
    intro k h
    rw [alookup]
    by_cases hk : k2 = k
    · simp [hk]
    · rw [if_neg hk]
      apply ih
      rcases List.mem_cons.mp h with h1 | h1
      · exact absurd h1.symm hk
      · exact h1

/-- The key list of a dictionary built by folding pair inserts. -/
theorem keys_foldl_upsert_pair {α : Type} (pairs : List (Str × α)) :
    ∀ (d : List (Str × α)),
      ((pairs.foldl (fun d pr => dictUpsert d pr.1 pr.2) d).map Prod.fst) =
        List.foldl setAdd (d.map Prod.fst) (pairs.map Prod.fst) := by
  induction pairs with
  | nil => intro d; simp
  | cons pr pairs ih =>
    intro d
    rw [List.foldl_cons, ih, keys_dictUpsert, List.map_cons, List.foldl_cons]

/-- Every rule built by mkMappingEntry satisfies the column-count invariant,
and its column-rename map is defined on every declared output column. -/
theorem mkMappingEntry_ok_bounds (times_name : Str) (times_cols : List Str)
    (xl_name : Str) (xl_cols : List Str) (filter_rows : List (Str × Str))
    (m : TimesXlMap)
    (h : mkMappingEntry times_name times_cols xl_name xl_cols filter_rows =
      .ok (some m)) :
    m.times_cols.length ≤ m.xl_cols.length ∧
      ∀ c ∈ m.times_cols, (alookup m.col_map c).isSome := by
  rw [mkMappingEntry] at h
  split at h
  · split at h
    · next hle =>
      cases h
      refine ⟨hle, ?_⟩
      intro c hc
      apply alookup_isSome_of_mem_keys
      rw [keys_foldl_upsert_pair]
      apply mem_foldl_setAdd
      right
      rw [List.map_fst_zip _ _ hle]
      exact hc
    · cases h
  · cases h

/-- Every rule compiled from an accepted mapping-grammar line satisfies the
column-count invariant, and its column-rename map is defined on every declared
output column. -/
theorem processMappingLine_ok_bounds (line : Str) (m : TimesXlMap)
    (h : processMappingLine line = .ok (some m)) :
    m.times_cols.length ≤ m.xl_cols.length ∧
      ∀ c ∈ m.times_cols, (alookup m.col_map c).isSome := by
  rw [processMappingLine] at h
  split at h
  · split at h
    · split at h
      · split at h
        · cases h
        · exact mkMappingEntry_ok_bounds _ _ _ _ _ _ h
      · cases h
    · cases h
  · cases h

/-- C4: no accepted mapping-grammar line is silently truncated: whenever
loading succeeds, every compiled rule has at most as many output columns as
remaining input columns and its column-rename map covers every output column;
and a line whose output columns outnumber the input columns after
filter-token removal makes loading fail with the assertion error. -/
theorem c4_assert_no_truncation :
    (∀ (lines : List Str) (ms : List TimesXlMap) (dropped : Nat),
        read_mappings lines = .ok (ms, dropped) →
        ∀ m ∈ ms, m.times_cols.length ≤ m.xl_cols.length ∧
          ∀ c ∈ m.times_cols, (alookup m.col_map c).isSome)
    ∧ (∀ (times_name : Str) (times_cols : List Str) (xl_name : Str)
          (xl_cols : List Str) (filter_rows : List (Str × Str)),
        ((xl_name != str "~TODO")
          && ! (xl_cols.any (fun c => strStartsWith (str "TODO") c))) = true →
        ¬ times_cols.length ≤ xl_cols.length →
        mkMappingEntry times_name times_cols xl_name xl_cols filter_rows =
          .error "AssertionError: more output columns than input columns")
    ∧ read_mappings [str "OUT[A,B] = ~TAG(col1)"] =
        .error "AssertionError: more output columns than input columns" := by
  refine ⟨?_, ?_, by decide⟩
  · intro lines
    induction lines with
    | nil =>
      intro ms dropped h m hm
      rw [read_mappings] at h
      cases h
      simp at hm
    | cons l rest ih =>
      intro ms dropped h m hm
      rw [read_mappings] at h
      split at h
      · cases h
        simp at hm
      · split at h
        · cases h
        · split at h
          · cases h
          · split at h
            · next m2 =>
              cases h
              rcases List.mem_cons.mp hm with h1 | h1
              · subst h1
                exact processMappingLine_ok_bounds _ _ (by assumption)
              · exact ih _ _ (by assumption) m h1
            · cases h
              exact ih _ _ (by assumption) m hm
  · intro times_name times_cols xl_name xl_cols filter_rows h1 h2
    rw [mkMappingEntry, if_pos h1, if_neg h2]

/-- Witness for C4 at a concrete accepted line. -/
theorem c4_assert_no_truncation_witness :
    ({ times_name := str "OUT", times_cols := [str "A", str "VALUE"],
       xl_name := str "~TAG", xl_cols := [str "col1", str "col2"],
       col_map := [(str "A", str "col1"), (str "VALUE", str "col2")],
       filter_rows := [(str "attribute", str "FOO")] } : TimesXlMap).times_cols.length ≤
      ({ times_name := str "OUT", times_cols := [str "A", str "VALUE"],
         xl_name := str "~TAG", xl_cols := [str "col1", str "col2"],
         col_map := [(str "A", str "col1"), (str "VALUE", str "col2")],
         filter_rows := [(str "attribute", str "FOO")] } : TimesXlMap).xl_cols.length
    ∧ mkMappingEntry (str "OUT") [str "A", str "B"] (str "~TAG") [str "col1"] [] =
        .error "AssertionError: more output columns than input columns" :=
  ⟨(c4_assert_no_truncation.1 [str "OUT[A,VALUE] = ~TAG(col1,col2,Attribute:FOO)"]
      [{ times_name := str "OUT", times_cols := [str "A", str "VALUE"],
         xl_name := str "~TAG", xl_cols := [str "col1", str "col2"],
         col_map := [(str "A", str "col1"), (str "VALUE", str "col2")],
         filter_rows := [(str "attribute", str "FOO")] }] 0 (by decide) _
      (List.mem_singleton.mpr rfl)).1,
   c4_assert_no_truncation.2.1 (str "OUT") [str "A", str "B"] (str "~TAG")
     [str "col1"] [] (by decide) (by decide)⟩

/-- Validation of one table succeeds exactly when its header exists, its row
list is non-empty, and every row length equals the header length. -/
theorem saveTable_ok_iff (name : Str) (rows : List (List Str))
    (headers : List (Str × List Str)) :
    (∃ t, saveTable name rows headers = .ok t) ↔
      ∃ cols, alookup headers name = some cols ∧ rows ≠ [] ∧
        ∀ r ∈ rows, r.length = cols.length := by
  rw [saveTable]
  cases halk : alookup headers name with
  | none =>
    constructor
    · rintro ⟨t, ht⟩; cases ht
    · rintro ⟨cols, hc, _⟩; cases hc
  | some cols =>
    dsimp only
    cases hf : List.find? (fun r => r.length != cols.length) rows with
    | some r =>
      constructor
      · rintro ⟨t, ht⟩; cases ht
      · rintro ⟨cols2, hc, _, hall⟩
        cases hc
        have hmem := List.mem_of_find?_eq_some hf
        have hprop := List.find?_some hf
        rw [bne_iff_ne] at hprop
        exact absurd (hall r hmem) hprop
    | none =>
      constructor
      · rintro ⟨t, ht⟩
        dsimp only at ht
        split at ht
        · cases ht
        · next hne =>
          refine ⟨cols, rfl, hne, ?_⟩
          intro r hr
          have := List.find?_eq_none.mp hf r hr
          simpa [bne_iff_ne] using this
      · rintro ⟨cols2, hc, hne, _⟩
        cases hc
        dsimp only
        rw [if_neg hne]
        exact ⟨_, rfl⟩

/-- The writer succeeds exactly when every table of the data dictionary has a
header, a non-empty row list, and rows matching the header length. -/
theorem save_ok_iff :
    ∀ (data : List (Str × List (List Str))) (headers : List (Str × List Str)),
    (∃ out, save_data_with_headers data headers = .ok out) ↔
      ∀ pr ∈ data, ∃ cols, alookup headers pr.1 = some cols ∧ pr.2 ≠ [] ∧
        ∀ r ∈ pr.2, r.length = cols.length := by
  intro data headers
  induction data with
  | nil =>
    constructor
    · intro _ pr hpr; simp at hpr
    · intro _; exact ⟨[], rfl⟩
  | cons pr rest ih =>
    obtain ⟨n, rows⟩ := pr
    rw [save_data_with_headers]
    cases hst : saveTable n rows headers with
    | error e =>
      constructor
      · rintro ⟨out, hout⟩; cases hout
      · intro hall
        have := (saveTable_ok_iff n rows headers).mpr (hall (n, rows) (List.mem_cons_self _ _))
        obtain ⟨t, ht⟩ := this
        rw [hst] at ht
        cases ht
    | ok t =>
      cases hrest : save_data_with_headers rest headers with
      | error e =>
        constructor
        · rintro ⟨out, hout⟩; cases hout
        · intro hall
          have := ih.mpr (fun pr hpr => hall pr (List.mem_cons_of_mem _ hpr))
          obtain ⟨out2, hout2⟩ := this
          rw [hrest] at hout2
          cases hout2
      | ok ts =>
        constructor
        · intro _ pr hpr
          rcases List.mem_cons.mp hpr with h1 | h1
          · subst h1
            exact (saveTable_ok_iff _ _ _).mp ⟨t, hst⟩
          · exact (ih.mp ⟨ts, hrest⟩) pr h1
        · intro _
          exact ⟨t :: ts, rfl⟩

/-- C5, amended: save_data_with_headers fails exactly when some table of the
data dictionary has no header entry, or some row length differs from the
header length, or some table has an empty row collection (the array
conversion rejects empty data); a missing header names the missing table, and
a 3-value row against a 2-column header fails naming 3 and 2. -/
theorem c5_amended :
    (∀ (data : List (Str × List (List Str))) (headers : List (Str × List Str)),
      (∃ out, save_data_with_headers data headers = .ok out) ↔
        ∀ pr ∈ data, ∃ cols, alookup headers pr.1 = some cols ∧ pr.2 ≠ [] ∧
          ∀ r ∈ pr.2, r.length = cols.length)
    ∧ save_data_with_headers [(str "T", [[str "a", str "b", str "c"]])]
        [(str "T", [str "x", str "y"])] =
        .error "ValueError: Mismatched number of columns for param T between data (3) and mapping (2)"
    ∧ save_data_with_headers [(str "T", [[str "a"]])] [] =
        .error "ValueError: Could not find mapping for T in mapping file." :=
  ⟨save_ok_iff, by decide, by decide⟩

/-- Witness for the amended C5 theorem at a concrete well-formed input. -/
theorem c5_amended_witness :
    ∃ out, save_data_with_headers [(str "T", [[str "a", str "b"]])]
      [(str "T", [str "x", str "y"])] = .ok out :=
  (c5_amended.1 _ _).mpr (by
    intro pr hpr
    rcases List.mem_singleton.mp hpr with h1
    subst h1
    exact ⟨[str "x", str "y"], by decide, by decide, by decide⟩)

/-- C5, counterexample: a table whose header exists and whose rows all match
the header length (vacuously, the row list being empty) still makes
save_data_with_headers fail, with the two-dimensional slice error of the array
conversion, so the claimed two failure conditions are not exhaustive. -/
theorem c5_counterexample :
    alookup [(str "T", [str "x", str "y"])] (str "T") = some [str "x", str "y"]
    ∧ (∀ r ∈ ([] : List (List Str)), r.length = 2)
    ∧ save_data_with_headers [(str "T", [])] [(str "T", [str "x", str "y"])] =
        .error "IndexError: too many indices for array" :=
  ⟨by decide, by decide, by decide⟩

/-- Splitting a string that does not contain the separator yields the single
segment. -/
theorem splitChar_no_sep (c : Char) : ∀ (s : Str), ¬ c ∈ s → splitChar c s = [s] := by
  intro s
  induction s with
  | nil => intro _; rfl
  | cons x xs ih =>
    intro h
    have hx : ¬ x = c := fun hc => h (by rw [hc] at *; exact List.mem_cons_self _ _)
    have hxs : ¬ c ∈ xs := fun hc => h (List.mem_cons_of_mem _ hc)
    rw [splitChar, ih hxs]
    simp [hx]

/-- Splitting a two-token string on its single separator occurrence yields
exactly the two tokens. -/
theorem splitChar_append_sep (c : Char) (v : Str) (hv : ¬ c ∈ v) :
    ∀ (k : Str), ¬ c ∈ k → splitChar c (k ++ c :: v) = [k, v] := by
  intro k
  induction k with
  | nil =>
    intro _
    rw [List.nil_append, splitChar, splitChar_no_sep c v hv]
    simp
  | cons x xs ih =>
    intro hk
    have hx : ¬ x = c := fun hc => hk (by rw [hc] at *; exact List.mem_cons_self _ _)
    have hxs : ¬ c ∈ xs := fun hc => hk (List.mem_cons_of_mem _ hc)
    rw [List.cons_append, splitChar, ih hxs]
    simp [hx]

/-- Blank skipping stops at once on a non-blank line. -/
theorem skipBlanks_cons (l : Str) (rest : List Str) (h : trimWS l ≠ []) :
    skipBlanks (l :: rest) = .ok (l, rest) := by
  rw [skipBlanks, if_neg h]

/-- The parameter-row reader stops on a terminator line. -/
theorem readParamRows_stop (t : Str) (rest : List Str)
    (h : strStartsWith (str "/") t = true ∨ t = []) :
    readParamRows (t :: rest) = .ok ([], t, rest) := by
  rw [readParamRows, if_pos h]

/-- The parameter-row reader prepends a parsed row to the rows of the rest. -/
theorem readParamRows_cons {row : Str} {rest : List Str} {rec : List Str}
    {rows : List (List Str)} {t : Str} {r : List Str}
    (h1 : ¬ (strStartsWith (str "/") row = true ∨ row = []))
    (h2 : parseParamRow row = .ok rec)
    (h3 : readParamRows rest = .ok (rows, t, r)) :
    readParamRows (row :: rest) = .ok (rec :: rows, t, r) := by
  rw [readParamRows, if_neg h1]
  simp only [h2, h3]

/-- Evaluation of the PARAMETER branch on a line that opens a block. -/
theorem paramStep_block (p : RowDict) {rest : List Str} {nameLine : Str}
    {r1 : List Str} {rows : List (List Str)} {t : Str} {r2 : List Str}
    (hskip : skipBlanks rest = .ok (nameLine, r1))
    (hrows : readParamRows r1 = .ok (rows, t, r2)) :
    paramStep (str "PARAMETER") rest p =
      .ok (t, r2, dictUpsert p (stripParamDecor nameLine) rows) := by
  rw [paramStep, if_pos (by decide)]
  simp only [hskip, hrows]

/-- The SET branch leaves everything unchanged on a line that does not open a
set block. -/
theorem setStep_skip (cur2 : Str) (rest2 : List Str) (s : RowDict)
    (h : strStartsWith (str "SET") cur2 = false) :
    setStep cur2 rest2 s = .ok (rest2, s) := by
  rw [setStep, if_neg (by simp [h])]

/-- One iteration of the scanning loop, driven by the evaluation of its two
branches. -/
theorem ppvGo_step {fuel : Nat} {cur : Str} {rest : List Str} {p s : RowDict}
    {cur2 : Str} {rest2 : List Str} {p2 : RowDict} {rest3 : List Str} {s2 : RowDict}
    (h1 : paramStep cur rest p = .ok (cur2, rest2, p2))
    (h2 : setStep cur2 rest2 s = .ok (rest3, s2)) :
    ppvGo (fuel + 1) (cur :: rest) p s = ppvGo fuel rest3 p2 s2 := by
  rw [ppvGo]
  simp only [h1, h2]

/-- The dd file of the C6 example: parameter MYPARAM with a quoted compound
key row and a bare scalar row. -/
def ddFileC6 : List Str :=
  [str "PARAMETER",
   str "MYPARAM" ++ ' ' :: paramDecorTail,
   quoteChar :: 'A' :: quoteChar :: '.' :: quoteChar :: 'B' :: quoteChar :: ' ' :: '1' :: '0' :: [],
   str "20",
   str "/"]

/-- Name line declaring parameter P with the standard decoration. -/
def pnameLineP : Str := 'P' :: ' ' :: paramDecorTail

/-- C6: the concrete example block for MYPARAM yields the records A-B-10 and
20; and in general, for every parameter row made of a key token and a value
token joined by one space, the parser splits the key on dots and strips
surrounding quotes from each component exactly when the component has no
space, appending the value. -/
theorem c6_param_quote_stripping :
    parse_parameter_values_from_file ddFileC6 =
      .ok ([(str "MYPARAM", [[str "A", str "B", str "10"], [str "20"]])], [])
    ∧ (∀ k v : Str, ¬ ' ' ∈ k → ¬ ' ' ∈ v →
        strStartsWith (str "/") (k ++ ' ' :: v) = false →
        parse_parameter_values_from_file
          [str "PARAMETER", pnameLineP, k ++ ' ' :: v, str "/"] =
        .ok ([(str "P", [((splitChar '.' k).map qstrip) ++ [v]])], [])) := by
  constructor
  · decide
  · intro k v hk hv hsl
    have hrowne : k ++ ' ' :: v ≠ [] := by cases k <;> simp
    have hsplit : splitChar ' ' (k ++ ' ' :: v) = [k, v] :=
      splitChar_append_sep ' ' v hv k hk
    have hrec : parseParamRow (k ++ ' ' :: v) =
        .ok (((splitChar '.' k).map qstrip) ++ [v]) := by
      rw [parseParamRow, hsplit]
    have hnotstop : ¬ (strStartsWith (str "/") (k ++ ' ' :: v) = true ∨
        k ++ ' ' :: v = []) := by
      simp [hsl, hrowne]
    rw [parse_parameter_values_from_file,
        ppvGo_step
          (paramStep_block [] (skipBlanks_cons _ _ (by decide))
            (readParamRows_cons hnotstop hrec
              (readParamRows_stop _ _ (Or.inl (by decide)))))
          (setStep_skip _ _ _ (by decide))]
    rfl

/-- Witness for the general part of C6 at a concrete quoted key. -/
theorem c6_param_quote_stripping_witness :
    parse_parameter_values_from_file
      [str "PARAMETER", pnameLineP,
       (quoteChar :: 'A' :: quoteChar :: []) ++ ' ' :: str "10", str "/"] =
    .ok ([(str "P", [[str "A", str "10"]])], []) :=
  c6_param_quote_stripping.2 (quoteChar :: 'A' :: quoteChar :: []) (str "10")
    (by decide) (by decide) (by decide)

/-- The dd file of the C9 set scenario: set S declared twice in one file, with
tuples X and Y first and tuples Y and Z afterwards. -/
def ddFileTwoSets : List Str :=
  [str "SET S", str "/",
   quoteChar :: 'X' :: quoteChar :: [],
   quoteChar :: 'Y' :: quoteChar :: [],
   str "/", str "",
   str "SET S", str "/",
   quoteChar :: 'Y' :: quoteChar :: [],
   quoteChar :: 'Z' :: quoteChar :: [],
   str "/"]

/-- C9: when the same parameter name heads two blocks of one file, the second
block replaces the first in the returned dictionary: the general two-block
file with one scalar row per block keeps only the second row; set blocks, in
contrast, are unioned when the set name reappears in one file, as the
concrete two-block set file shows. -/
theorem c9_param_overwrite_vs_set_union :
    (∀ (nameLine r1 r2 : Str), trimWS nameLine ≠ [] →
      strStartsWith (str "/") r1 = false → r1 ≠ [] → ¬ ' ' ∈ r1 →
      strStartsWith (str "/") r2 = false → r2 ≠ [] → ¬ ' ' ∈ r2 →
      parse_parameter_values_from_file
        [str "PARAMETER", nameLine, r1, str "/",
         str "PARAMETER", nameLine, r2, str "/"] =
      .ok ([(stripParamDecor nameLine, [[r2]])], []))
    ∧ parse_parameter_values_from_file ddFileTwoSets =
        .ok ([], [(str "S", [[str "X"], [str "Y"], [str "Z"]])]) := by
  constructor
  · intro nameLine r1 r2 hn hs1 hne1 hw1 hs2 hne2 hw2
    have hrec1 : parseParamRow r1 = .ok [r1] := by
      rw [parseParamRow, splitChar_no_sep ' ' r1 hw1]
    have hrec2 : parseParamRow r2 = .ok [r2] := by
      rw [parseParamRow, splitChar_no_sep ' ' r2 hw2]
    have hstop1 : ¬ (strStartsWith (str "/") r1 = true ∨ r1 = []) := by
      simp [hs1, hne1]
    have hstop2 : ¬ (strStartsWith (str "/") r2 = true ∨ r2 = []) := by
      simp [hs2, hne2]
    rw [parse_parameter_values_from_file]
    rw [show ([str "PARAMETER", nameLine, r1, str "/",
         str "PARAMETER", nameLine, r2, str "/"] : List Str).length = 8 from rfl]
    rw [show (8 : Nat) + 1 = 8 + 1 from rfl,
        ppvGo_step
          (paramStep_block [] (skipBlanks_cons _ _ hn)
            (readParamRows_cons hstop1 hrec1
              (readParamRows_stop _ _ (Or.inl (by decide)))))
          (setStep_skip _ _ _ (by decide))]
    rw [show (8 : Nat) = 7 + 1 from rfl,
        ppvGo_step
          (paramStep_block _ (skipBlanks_cons _ _ hn)
            (readParamRows_cons hstop2 hrec2
              (readParamRows_stop _ _ (Or.inl (by decide)))))
          (setStep_skip _ _ _ (by decide))]
    rw [show (7 : Nat) = 6 + 1 from rfl, ppvGo]
    simp [dictUpsert]
  · decide

/-- Witness for the general part of C9 at concrete rows. -/
theorem c9_param_overwrite_vs_set_union_witness :
    parse_parameter_values_from_file
      [str "PARAMETER", str "P", str "1", str "/",
       str "PARAMETER", str "P", str "2", str "/"] =
    .ok ([(str "P", [[str "2"]])], []) :=
  c9_param_overwrite_vs_set_union.1 (str "P") (str "1") (str "2")
    (by decide) (by decide) (by decide) (by decide) (by decide) (by decide) (by decide)
